import Mathlib

/-!
Verification development for the getfundholdings data pipeline.

The definitions below embed, in Lean, the components of the pipeline that the
verified properties speak about:

* the rate-limited remote client (`rateLimitSleep`, `makeRequest`,
  `loadCache`), translated from the reference implementation of
  `_rate_limit`, `_make_request` and `_load_cache` in the API-client
  specification document;
* the N-PORT document extraction engine (`extract`);
* the identifier-resolution cache engine over the `security_mappings` table
  (`resolve_batch`, `cacheWrite`);
* the filing lifecycle state machine (`FilingTransition`);
* the flat/structured holdings export conversion (`read_csv_to_json`,
  `structuredToFlat`).

Time is modelled with exact rationals (seconds since the epoch, as produced by
a monotone wall clock), and money/percentage columns with exact rationals as
well, so that every definition is executable and decidable on concrete inputs.
-/

namespace FundHoldings

/-! ## Rate-limited remote client: `_rate_limit`

Translated from the reference implementation:

```
def _rate_limit(self):
    current_time = time.time()
    time_since_last = current_time - self.last_request_time
    if time_since_last < self.min_interval:
        sleep_time = self.min_interval - time_since_last
        time.sleep(sleep_time)
    self.last_request_time = time.time()
```

The state carried between calls is `last_request_time` together with the
configured `min_interval`.  `time.time()` after the sleep evaluates to
`current_time + sleep_time` on an ideal monotone clock, which is the instant
at which the guarded request is actually issued.
-/

/-- Mutable state owned by one rate-limited client instance. -/
structure RateLimiterState where
  last_request_time : ℚ
  min_interval : ℚ
deriving DecidableEq, Repr

/-- Sleep duration computed by `_rate_limit` when it is invoked at wall-clock
instant `t`: the remaining part of `min_interval`, or zero when the interval
has already elapsed. -/
def rateLimitSleep (s : RateLimiterState) (t : ℚ) : ℚ :=
  let time_since_last := t - s.last_request_time
  if time_since_last < s.min_interval then s.min_interval - time_since_last else 0

/-- Instant at which the request guarded by `_rate_limit` actually proceeds:
the invocation instant plus the enforced sleep. -/
def rateLimitProceedTime (s : RateLimiterState) (t : ℚ) : ℚ :=
  t + rateLimitSleep s t

/-- State update performed by `_rate_limit`: `last_request_time` is set to the
clock reading taken after the sleep. -/
def rateLimitStep (s : RateLimiterState) (t : ℚ) : RateLimiterState :=
  { s with last_request_time := rateLimitProceedTime s t }

/-- Client state after `n` rate-limited requests whose invocation instants are
given by the stream `arrivals`. -/
def rateLimitStateAt (s₀ : RateLimiterState) (arrivals : ℕ → ℚ) : ℕ → RateLimiterState
  | 0 => s₀
  | n + 1 => rateLimitStep (rateLimitStateAt s₀ arrivals n) (arrivals n)

/-- Instant at which the `n`-th request of the run is actually sent. -/
def requestTime (s₀ : RateLimiterState) (arrivals : ℕ → ℚ) (n : ℕ) : ℚ :=
  rateLimitProceedTime (rateLimitStateAt s₀ arrivals n) (arrivals n)

/-- OpenFIGI rate-limit configuration: 25 requests per 7 seconds, i.e. a
minimum spacing of 7/25 of a second between consecutive requests. -/
def openFigiMinInterval : ℚ := 7 / 25

/-! ## Rate-limited remote client: `_make_request`

Translated from the reference implementation (attempts are 0-indexed and the
loop runs `max_retries + 1` times):

```
for attempt in range(max_retries + 1):
    try:
        self._rate_limit()
        response = self.session.post(url, json=data, timeout=30)
        if response.status_code == 429:
            if attempt < max_retries:
                backoff_time = min(60, (2 ** attempt) * 5)
                time.sleep(backoff_time)
                continue
            else:
                raise requests.RequestException("Rate limit exceeded after all retries")
        if response.status_code >= 400:
            if response.status_code == 404:
                return response
        response.raise_for_status()
        return response
    except requests.RequestException as e:
        if attempt < max_retries:
            delay = (2 ** attempt) + 1
            time.sleep(delay)
        else:
            raise
raise requests.RequestException("Max retries exceeded")
```

A `raise` of the rate-limit exception inside the `try` block is caught by the
`except` clause of the same iteration, where `attempt < max_retries` is false,
so it propagates to the caller.  `response.raise_for_status()` raises for any
status in `[400, 600)`, which for a non-404, non-429 error status sends the
iteration into the retry branch of the `except` clause.
-/

/-- Result of one attempted HTTP POST: either a response with a status code,
or a network-level request exception. -/
inductive AttemptResp where
  | status (code : ℕ)
  | netError
deriving DecidableEq, Repr

/-- Overall outcome of `_make_request`. -/
inductive ReqOutcome where
  /-- A `requests.Response` with this status code was returned to the caller. -/
  | response (code : ℕ)
  /-- The `RequestException("Rate limit exceeded after all retries")` escaped. -/
  | rateLimitedError
  /-- Some other `requests.RequestException` escaped to the caller. -/
  | requestError
deriving DecidableEq, Repr

/-- Backoff slept before retrying after a 429 response on the given attempt:
`min(60, (2 ** attempt) * 5)` seconds. -/
def backoff429 (attempt : ℕ) : ℕ := min 60 (2 ^ attempt * 5)

/-- Delay slept before retrying after a caught request exception on the given
attempt: `(2 ** attempt) + 1` seconds. -/
def backoffErr (attempt : ℕ) : ℕ := 2 ^ attempt + 1

/-- Loop body of `_make_request`.  `oracle k` is what the `k`-th POST attempt
produces.  `fuel` is the number of loop iterations still available; it starts
at `max_retries + 1` so the final `raise` after the loop is unreachable.  The
result pairs the outcome with the list of retry sleeps performed, in order. -/
def makeRequestAux (oracle : ℕ → AttemptResp) (max_retries : ℕ) :
    ℕ → ℕ → ReqOutcome × List ℕ
  | 0, _ => (.requestError, [])
  | fuel + 1, attempt =>
    match oracle attempt with
    | .status code =>
      if code = 429 then
        if attempt < max_retries then
          let r := makeRequestAux oracle max_retries fuel (attempt + 1)
          (r.1, backoff429 attempt :: r.2)
        else
          (.rateLimitedError, [])
      else if code = 404 then
        (.response 404, [])
      else if 400 ≤ code ∧ code < 600 then
        if attempt < max_retries then
          let r := makeRequestAux oracle max_retries fuel (attempt + 1)
          (r.1, backoffErr attempt :: r.2)
        else
          (.requestError, [])
      else
        (.response code, [])
    | .netError =>
      if attempt < max_retries then
        let r := makeRequestAux oracle max_retries fuel (attempt + 1)
        (r.1, backoffErr attempt :: r.2)
      else
        (.requestError, [])

/-- Entry point of `_make_request`: run the loop from attempt 0 with
`max_retries + 1` iterations of fuel. -/
def makeRequest (oracle : ℕ → AttemptResp) (max_retries : ℕ) : ReqOutcome × List ℕ :=
  makeRequestAux oracle max_retries (max_retries + 1) 0

/-! ## Rate-limited remote client: `_load_cache`

Translated from the reference implementation:

```
def _load_cache(self) -> Dict:
    if os.path.exists(self.cache_file):
        try:
            with open(self.cache_file, 'r') as f:
                data = json.load(f)
                return data
        except Exception as e:
            self.logger.warning(f"Failed to load cache file: ...")
            return {}
    return {}
```
-/

/-- Observable state of the cache file at client construction. -/
inductive CacheFile where
  /-- The file does not exist (`os.path.exists` is false). -/
  | absent
  /-- The file exists but `open` raises (for example a permission error). -/
  | unreadable
  /-- The file opens but `json.load` raises a decode error. -/
  | malformed
  /-- The file holds a well-formed JSON object with these entries. -/
  | valid (entries : List (String × String))
deriving DecidableEq, Repr

/-- Result of `os.path.exists(self.cache_file)`. -/
def cacheFileExists : CacheFile → Bool
  | .absent => false
  | _ => true

/-- Result of `open` followed by `json.load`, either the decoded entries or
the exception that the combination raises. -/
def readCacheFile : CacheFile → Except String (List (String × String))
  | .absent => .error "FileNotFoundError"
  | .unreadable => .error "OSError"
  | .malformed => .error "JSONDecodeError"
  | .valid entries => .ok entries

/-- Body of `_load_cache`: the existence guard, then the `try`/`except` that
turns any read or decode failure into the empty mapping. -/
def loadCache (f : CacheFile) : List (String × String) :=
  if cacheFileExists f then
    match readCacheFile f with
    | .ok data => data
    | .error _ => []
  else
    []

/-! ## Document extraction engine -/

/-- Modelled from the spec: the fund-level header of an N-PORT filing
(series/class identifiers and report period date extracted from the header
section).  The extraction code `fh/nport_parser` style module is not part of
the documentation corpus, so the engine is modelled from §4.2 of the spec. -/
structure FilingHeader where
  series_id : String
  class_ids : List String
  report_period_date : String
deriving DecidableEq, Repr

/-- Modelled from the spec: one holding element of a filing document.  Every
field may be absent in the source XML; absent fields are `none`. -/
structure HoldingElement where
  name : Option String
  lei : Option String
  title : Option String
  cusip : Option String
  isin : Option String
  other_id : Option String
  other_id_desc : Option String
  balance : Option ℚ
  units : Option String
  currency : Option String
  value_usd : Option ℚ
  percent_value : Option ℚ
  payoff_profile : Option String
  asset_category : Option String
  issuer_category : Option String
  investment_country : Option String
  is_restricted_security : Option String
  fair_value_level : Option String
  is_cash_collateral : Option String
  is_non_cash_collateral : Option String
  is_loan_by_fund : Option String
  loan_value : Option ℚ
deriving DecidableEq, Repr

/-- Modelled from the spec: a filing document as seen by the extraction
engine — a header section (whose parse may fail, in which case the whole
document is malformed) followed by a stream of holding elements. -/
structure NportDocument where
  header : Option FilingHeader
  holdings : List HoldingElement
deriving DecidableEq, Repr

/-- Raw holding record, matching the 24 columns of `HoldingsRawSchema`: the
22 extracted per-element columns plus the `source_file` and
`report_period_date` provenance columns stamped by the engine. -/
structure RawHolding where
  name : Option String
  lei : Option String
  title : Option String
  cusip : Option String
  isin : Option String
  other_id : Option String
  other_id_desc : Option String
  balance : Option ℚ
  units : Option String
  currency : Option String
  value_usd : Option ℚ
  percent_value : Option ℚ
  payoff_profile : Option String
  asset_category : Option String
  issuer_category : Option String
  investment_country : Option String
  is_restricted_security : Option String
  fair_value_level : Option String
  is_cash_collateral : Option String
  is_non_cash_collateral : Option String
  is_loan_by_fund : Option String
  loan_value : Option ℚ
  source_file : String
  report_period_date : String
deriving DecidableEq, Repr

/-- Extraction failure modes of the engine. -/
inductive ExtractErr where
  /-- The filing header section could not be parsed. -/
  | malformedDocument
deriving DecidableEq, Repr

/-- Modelled from the spec: conversion of one completed holding element into a
raw holding record.  Missing fields (including a missing required field such
as the security name, which is only a logged data-quality condition) are kept
as nulls; provenance is stamped from the source file and the header. -/
def toRawHolding (src : String) (hdr : FilingHeader) (e : HoldingElement) : RawHolding :=
  { name := e.name
    lei := e.lei
    title := e.title
    cusip := e.cusip
    isin := e.isin
    other_id := e.other_id
    other_id_desc := e.other_id_desc
    balance := e.balance
    units := e.units
    currency := e.currency
    value_usd := e.value_usd
    percent_value := e.percent_value
    payoff_profile := e.payoff_profile
    asset_category := e.asset_category
    issuer_category := e.issuer_category
    investment_country := e.investment_country
    is_restricted_security := e.is_restricted_security
    fair_value_level := e.fair_value_level
    is_cash_collateral := e.is_cash_collateral
    is_non_cash_collateral := e.is_non_cash_collateral
    is_loan_by_fund := e.is_loan_by_fund
    loan_value := e.loan_value
    source_file := src
    report_period_date := hdr.report_period_date }

/-- Modelled from the spec: the extraction engine.  An unparseable header is
`MalformedDocument`; otherwise every holding element of the stream is emitted
as one raw record (malformed individual elements become null-field records,
never omissions), together with the filing-level metadata. -/
def extract (src : String) (doc : NportDocument) :
    Except ExtractErr (List RawHolding × FilingHeader) :=
  match doc.header with
  | none => .error .malformedDocument
  | some hdr => .ok (doc.holdings.map (toRawHolding src hdr), hdr)

/-! ## Identifier resolution cache engine

The `security_mappings` table and the cache-first resolution algorithm, from
the PRD (`security_mappings` schema, 60-day negative-result TTL, unique
active-row index) and §4.3 of the spec.  The client code
(`fh/openfigi_client.py`, `fh/db_models.py`) is not part of the documentation
corpus, so the cache engine is modelled from those sources.
-/

/-- Identifier type admitted by the `security_mappings` check constraint. -/
inductive IdType where
  | CUSIP
  | ISIN
deriving DecidableEq, Repr

/-- One row of the `security_mappings` table. -/
structure SecurityMapping where
  identifier_type : IdType
  identifier_value : String
  ticker : Option String
  has_no_results : Bool
  start_date : ℚ
  end_date : Option ℚ
  last_fetched_date : ℚ
deriving DecidableEq, Repr

/-- Default negative-result TTL (`cache_max_age_days = 60`). -/
def default_cache_max_age_days : ℚ := 60

/-- Whether a row is the current (`end_date IS NULL`) mapping for the given
identifier. -/
def isCurrentFor (t : IdType) (v : String) (m : SecurityMapping) : Bool :=
  decide (m.identifier_type = t ∧ m.identifier_value = v ∧ m.end_date = none)

/-- Current-row lookup against the cache (the
`idx_security_mappings_current_lookup` query). -/
def findCurrent (db : List SecurityMapping) (t : IdType) (v : String) :
    Option SecurityMapping :=
  db.find? (isCurrentFor t v)

/-- Modelled from the spec: whether a current cache row counts as a usable
hit at time `now`.  A positive row is always a hit; a negative row
(`has_no_results = true`) is honored only while younger than the TTL. -/
def isFreshHit (ttl now : ℚ) (m : SecurityMapping) : Bool :=
  if m.has_no_results then decide (now - m.last_fetched_date < ttl) else true

/-- Modelled from the spec: whether the engine must go to the remote
resolution service for this identifier — no current row, or a current
negative row older than the TTL. -/
def needsRemote (db : List SecurityMapping) (ttl now : ℚ) (t : IdType) (v : String) : Bool :=
  match findCurrent db t v with
  | some m => !(isFreshHit ttl now m)
  | none => true

/-- Modelled from the spec: `resolve_batch`.  The input list is deduplicated;
cache hits (positive, and negative ones younger than the TTL) are answered
from the cache; the remaining identifiers are sent to the remote service
(`oracle`).  Returns the identifier → ticker mapping together with the list
of identifiers for which a remote request was issued. -/
def resolve_batch (db : List SecurityMapping) (oracle : String → Option String)
    (ttl now : ℚ) (t : IdType) (ids : List String) :
    List (String × Option String) × List String :=
  let uniq := ids.dedup
  (uniq.map fun v =>
    (v, match findCurrent db t v with
        | some m => if isFreshHit ttl now m then m.ticker else oracle v
        | none => oracle v),
   uniq.filter fun v => needsRemote db ttl now t v)

/-- Fresh current row opened for a remote result (found ticker, or explicit
absence recorded with `has_no_results = true`). -/
def newMappingRow (now : ℚ) (t : IdType) (v : String) (result : Option String) :
    SecurityMapping :=
  { identifier_type := t
    identifier_value := v
    ticker := result
    has_no_results := result.isNone
    start_date := now
    end_date := none
    last_fetched_date := now }

/-- Modelled from the spec: the cache-write operation of the resolution
engine.  A remote result is written back as a new current row; if a current
row already exists with the same ticker it is merely refreshed
(`last_fetched_date`), and if the ticker changed the old row is closed
(`end_date` set to `now`) and a new current row is opened — the ticker of a
current row is never updated in place. -/
def cacheWrite (db : List SecurityMapping) (now : ℚ) (t : IdType) (v : String)
    (result : Option String) : List SecurityMapping :=
  match findCurrent db t v with
  | none => db ++ [newMappingRow now t v result]
  | some m =>
    if m.ticker = result then
      db.map fun r =>
        if isCurrentFor t v r then { r with last_fetched_date := now } else r
    else
      (db.map fun r =>
        if isCurrentFor t v r then { r with end_date := some now } else r)
        ++ [newMappingRow now t v result]

/-- Uniqueness invariant enforced by `idx_security_mappings_active`: at most
one row with `end_date IS NULL` per (identifier_type, identifier_value). -/
def AtMostOneCurrent (db : List SecurityMapping) : Prop :=
  ∀ (t : IdType) (v : String), db.countP (isCurrentFor t v) ≤ 1

/-! ## Filing lifecycle state machine

Modelled from the spec (§4.4) and the `sec_reports` workflow states of the
postgres data-model documentation: two independent status axes, with the
processing axis gated on the download axis being `downloaded`.  The
orchestrator code (`fh/workflow.py`) is not part of the documentation corpus.
-/

/-- Download axis of a `sec_reports` row. -/
inductive DownloadStatus where
  | pending
  | downloaded
  | failed
deriving DecidableEq, Repr

/-- Processing axis of a `sec_reports` row. -/
inductive ProcessingStatus where
  | pending
  | processed
  | failed
deriving DecidableEq, Repr

/-- Status part of one filing record tracked by the orchestrator. -/
structure FilingRecord where
  download_status : DownloadStatus
  processing_status : ProcessingStatus
deriving DecidableEq, Repr

/-- State in which a filing record is created at discovery. -/
def initialFiling : FilingRecord :=
  { download_status := .pending, processing_status := .pending }

/-- Modelled from the spec: the status transitions the orchestrator may
perform on one filing record.  Each axis moves monotonically into its success
state, `failed` is retryable on both axes, and marking a filing `processed`
is gated on the download axis being `downloaded`. -/
inductive FilingTransition : FilingRecord → FilingRecord → Prop where
  /-- Raw document retrieved and stored; allowed while not yet downloaded. -/
  | downloadSuccess (s : FilingRecord) :
      s.download_status ≠ .downloaded →
      FilingTransition s { s with download_status := .downloaded }
  /-- Download attempt failed (retryable). -/
  | downloadFailure (s : FilingRecord) :
      s.download_status = .pending →
      FilingTransition s { s with download_status := .failed }
  /-- Extraction succeeded and raw holdings were persisted; gated on the
  download axis. -/
  | processSuccess (s : FilingRecord) :
      s.download_status = .downloaded →
      s.processing_status ≠ .processed →
      FilingTransition s { s with processing_status := .processed }
  /-- Extraction attempt failed (retryable). -/
  | processFailure (s : FilingRecord) :
      s.processing_status = .pending →
      FilingTransition s { s with processing_status := .failed }

/-- States of a filing record reachable from discovery through orchestrator
transitions. -/
def ReachableFiling (s : FilingRecord) : Prop :=
  Relation.ReflTransGen FilingTransition initialFiling s

/-! ## Flat/structured export round trip

Modelled from the spec (§6 output record formats) and the R2 client
documentation: the enriched holdings export is a flat record per holding, and
`read_csv_to_json` regroups it into a structured export of metadata plus a
holdings array whose objects keep every flat column.  The code
(`fh/r2_client.py`) is not part of the documentation corpus.  JSON values are
modelled with exact rationals for the numeric columns.
-/

/-- Enriched holding row: the 24 raw columns plus `ticker`,
`enrichment_datetime` and `enrichment_notes`. -/
structure EnrichedHolding where
  toRawHolding : RawHolding
  ticker : Option String
  enrichment_datetime : String
  enrichment_notes : Option String
deriving DecidableEq, Repr

/-- JSON value stored in one field of a structured holding object. -/
inductive JsonVal where
  | str (s : String)
  | num (q : ℚ)
  | null
deriving DecidableEq, Repr

/-- Metadata object of the structured export. -/
structure ExportMetadata where
  fund_ticker : String
  cik : String
  total_holdings : ℕ
  source_file : String
  upload_timestamp : String
deriving DecidableEq, Repr

/-- Structured (nested) export: metadata plus a holdings array of JSON
objects. -/
structure StructuredExport where
  metadata : ExportMetadata
  holdings : List (List (String × JsonVal))
deriving DecidableEq, Repr

/-- JSON encoding of a nullable string column. -/
def jsonOfOptStr : Option String → JsonVal
  | some s => .str s
  | none => .null

/-- JSON encoding of a nullable numeric column. -/
def jsonOfOptNum : Option ℚ → JsonVal
  | some q => .num q
  | none => .null

/-- Conversion of one flat enriched record into the structured holding
object, keeping every flat column under its column name. -/
def holdingToJson (h : EnrichedHolding) : List (String × JsonVal) :=
  let r := h.toRawHolding
  [("name", jsonOfOptStr r.name),
   ("lei", jsonOfOptStr r.lei),
   ("title", jsonOfOptStr r.title),
   ("cusip", jsonOfOptStr r.cusip),
   ("isin", jsonOfOptStr r.isin),
   ("other_id", jsonOfOptStr r.other_id),
   ("other_id_desc", jsonOfOptStr r.other_id_desc),
   ("balance", jsonOfOptNum r.balance),
   ("units", jsonOfOptStr r.units),
   ("currency", jsonOfOptStr r.currency),
   ("value_usd", jsonOfOptNum r.value_usd),
   ("percent_value", jsonOfOptNum r.percent_value),
   ("payoff_profile", jsonOfOptStr r.payoff_profile),
   ("asset_category", jsonOfOptStr r.asset_category),
   ("issuer_category", jsonOfOptStr r.issuer_category),
   ("investment_country", jsonOfOptStr r.investment_country),
   ("is_restricted_security", jsonOfOptStr r.is_restricted_security),
   ("fair_value_level", jsonOfOptStr r.fair_value_level),
   ("is_cash_collateral", jsonOfOptStr r.is_cash_collateral),
   ("is_non_cash_collateral", jsonOfOptStr r.is_non_cash_collateral),
   ("is_loan_by_fund", jsonOfOptStr r.is_loan_by_fund),
   ("loan_value", jsonOfOptNum r.loan_value),
   ("source_file", .str r.source_file),
   ("report_period_date", .str r.report_period_date),
   ("ticker", jsonOfOptStr h.ticker),
   ("enrichment_datetime", .str h.enrichment_datetime),
   ("enrichment_notes", jsonOfOptStr h.enrichment_notes)]

/-- Decoding of one nullable string value. -/
def decOptStr : JsonVal → Except String (Option String)
  | .str s => .ok (some s)
  | .null => .ok none
  | .num _ => .error "expected string"

/-- Decoding of one nullable numeric value. -/
def decOptNum : JsonVal → Except String (Option ℚ)
  | .num q => .ok (some q)
  | .null => .ok none
  | .str _ => .error "expected number"

/-- Decoding of one required string value. -/
def decStr : JsonVal → Except String String
  | .str s => .ok s
  | _ => .error "expected string"

/-- Decoding of a nullable string column from a structured holding object. -/
def getOptStr (o : List (String × JsonVal)) (k : String) : Except String (Option String) :=
  match o.lookup k with
  | some val => decOptStr val
  | none => .error k

/-- Decoding of a nullable numeric column from a structured holding object. -/
def getOptNum (o : List (String × JsonVal)) (k : String) : Except String (Option ℚ) :=
  match o.lookup k with
  | some val => decOptNum val
  | none => .error k

/-- Decoding of a required string column from a structured holding object. -/
def getStr (o : List (String × JsonVal)) (k : String) : Except String String :=
  match o.lookup k with
  | some val => decStr val
  | none => .error k

/-- Conversion of one structured holding object back into the flat enriched
record, reading every column by name. -/
def jsonToHolding (o : List (String × JsonVal)) : Except String EnrichedHolding := do
  let name ← getOptStr o "name"
  let lei ← getOptStr o "lei"
  let title ← getOptStr o "title"
  let cusip ← getOptStr o "cusip"
  let isin ← getOptStr o "isin"
  let other_id ← getOptStr o "other_id"
  let other_id_desc ← getOptStr o "other_id_desc"
  let balance ← getOptNum o "balance"
  let units ← getOptStr o "units"
  let currency ← getOptStr o "currency"
  let value_usd ← getOptNum o "value_usd"
  let percent_value ← getOptNum o "percent_value"
  let payoff_profile ← getOptStr o "payoff_profile"
  let asset_category ← getOptStr o "asset_category"
  let issuer_category ← getOptStr o "issuer_category"
  let investment_country ← getOptStr o "investment_country"
  let is_restricted_security ← getOptStr o "is_restricted_security"
  let fair_value_level ← getOptStr o "fair_value_level"
  let is_cash_collateral ← getOptStr o "is_cash_collateral"
  let is_non_cash_collateral ← getOptStr o "is_non_cash_collateral"
  let is_loan_by_fund ← getOptStr o "is_loan_by_fund"
  let loan_value ← getOptNum o "loan_value"
  let source_file ← getStr o "source_file"
  let report_period_date ← getStr o "report_period_date"
  let ticker ← getOptStr o "ticker"
  let enrichment_datetime ← getStr o "enrichment_datetime"
  let enrichment_notes ← getOptStr o "enrichment_notes"
  pure
    { toRawHolding :=
        { name := name
          lei := lei
          title := title
          cusip := cusip
          isin := isin
          other_id := other_id
          other_id_desc := other_id_desc
          balance := balance
          units := units
          currency := currency
          value_usd := value_usd
          percent_value := percent_value
          payoff_profile := payoff_profile
          asset_category := asset_category
          issuer_category := issuer_category
          investment_country := investment_country
          is_restricted_security := is_restricted_security
          fair_value_level := fair_value_level
          is_cash_collateral := is_cash_collateral
          is_non_cash_collateral := is_non_cash_collateral
          is_loan_by_fund := is_loan_by_fund
          loan_value := loan_value
          source_file := source_file
          report_period_date := report_period_date }
      ticker := ticker
      enrichment_datetime := enrichment_datetime
      enrichment_notes := enrichment_notes }

/-- Splitting of a character list on the underscore separator, accumulating
the current field in reverse; mirrors the semantics of splitting the
filename string on the underscore character. -/
def splitUnderscoreAux : List Char → List Char → List String
  | [], acc => [String.mk acc.reverse]
  | c :: cs, acc =>
    if c = '_' then String.mk acc.reverse :: splitUnderscoreAux cs []
    else splitUnderscoreAux cs (c :: acc)

/-- Fund-ticker extraction from the standardized export filename: position 2
in the underscore-split name. -/
def extract_fund_ticker_from_filename (filename : String) : Option String :=
  (splitUnderscoreAux filename.toList [])[2]?

/-- Modelled from the spec: `read_csv_to_json`.  Converts the flat enriched
rows into the structured export — metadata extracted from the filename plus
one JSON object per holding carrying all flat columns.  Fails gracefully when
the filename does not follow the standardized convention. -/
def read_csv_to_json (filename cik upload_timestamp : String)
    (rows : List EnrichedHolding) : Option StructuredExport :=
  match extract_fund_ticker_from_filename filename with
  | none => none
  | some ft =>
    some
      { metadata :=
          { fund_ticker := ft
            cik := cik
            total_holdings := rows.length
            source_file := filename
            upload_timestamp := upload_timestamp }
        holdings := rows.map holdingToJson }

/-- Conversion of a structured export back into flat records, decoding every
holding object. -/
def structuredToFlat (e : StructuredExport) : Except String (List EnrichedHolding) :=
  e.holdings.mapM jsonToHolding

/-! ## Concrete sample inputs used by the closed witnesses -/

/-- Holding element with every optional field absent. -/
def emptyElement : HoldingElement :=
  { name := none, lei := none, title := none, cusip := none, isin := none,
    other_id := none, other_id_desc := none, balance := none, units := none,
    currency := none, value_usd := none, percent_value := none,
    payoff_profile := none, asset_category := none, issuer_category := none,
    investment_country := none, is_restricted_security := none,
    fair_value_level := none, is_cash_collateral := none,
    is_non_cash_collateral := none, is_loan_by_fund := none, loan_value := none }

/-- Sample filing header. -/
def sampleHeader : FilingHeader :=
  { series_id := "S000004310", class_ids := ["C000219740"],
    report_period_date := "2025-06-30" }

/-- Sample document: one fully null element and one ordinary element. -/
def sampleDoc : NportDocument :=
  { header := some sampleHeader,
    holdings := [emptyElement,
      { emptyElement with name := some "Apple Inc", cusip := some "037833100" }] }

/-- Sample negative cache row fetched at time 0. -/
def sampleNegativeRow : SecurityMapping :=
  { identifier_type := .CUSIP, identifier_value := "037833100", ticker := none,
    has_no_results := true, start_date := 0, end_date := none,
    last_fetched_date := 0 }

/-- Sample standardized enriched-export filename. -/
def sampleFilename : String :=
  "holdings_enriched_IVV_1100663_S000004310_20250711_20250711_143022.csv"

/-- Sample holding element carrying ordinary values. -/
def appleElement : HoldingElement :=
  { emptyElement with
    name := some "Apple Inc",
    cusip := some "037833100",
    value_usd := some 1000000,
    percent_value := some (1 / 40) }

/-- Sample enriched holding row. -/
def sampleEnriched : EnrichedHolding :=
  { toRawHolding := toRawHolding sampleFilename sampleHeader appleElement,
    ticker := some "AAPL",
    enrichment_datetime := "2025-07-11T14:30:22+00:00",
    enrichment_notes := none }

/-- Structured export produced from the sample row, used by the C9 witness. -/
def sampleExport : StructuredExport :=
  { metadata :=
      { fund_ticker := "IVV", cik := "1100663", total_holdings := 1,
        source_file := sampleFilename,
        upload_timestamp := "2025-07-11T14:31:00+00:00" },
    holdings := [holdingToJson sampleEnriched] }

/-! ## Verified properties -/

/-- C4: when a call arrives before the minimum inter-request interval has
elapsed since the previous request, `_rate_limit` sleeps for exactly the
remaining time (`min_interval` minus the elapsed time) and then proceeds; and
for every invocation instant the guarded request proceeds no earlier than
`min_interval` after the previous request, so at least `min_interval` elapses
between consecutive requests and no call is ever rejected. -/
theorem c4_rate_limiter_blocks_exactly (s : RateLimiterState) (t : ℚ)
    (h : t - s.last_request_time < s.min_interval) :
    rateLimitSleep s t = s.min_interval - (t - s.last_request_time) ∧
    ∀ u : ℚ, s.min_interval ≤ rateLimitProceedTime s u - s.last_request_time := by
  constructor
  · simp only [rateLimitSleep, if_pos h]
  · intro u
    by_cases hu : u - s.last_request_time < s.min_interval
    · simp only [rateLimitProceedTime, rateLimitSleep, if_pos hu]
      linarith
    · simp only [rateLimitProceedTime, rateLimitSleep, if_neg hu]
      linarith

/-- Closed witness for the C4 theorem at a concrete state and instant. -/
theorem c4_witness :
    rateLimitSleep ⟨0, 1⟩ (1 / 2) = 1 - (1 / 2 - 0) ∧
    ∀ u : ℚ, 1 ≤ rateLimitProceedTime ⟨0, 1⟩ u - 0 :=
  c4_rate_limiter_blocks_exactly ⟨0, 1⟩ (1 / 2) (by norm_num)

/-- C6: a request whose first attempt yields a 404 response returns that
response to the caller immediately — no retry sleep is performed and no error
is raised — so callers can treat absence as a valid negative result. -/
theorem c6_not_found_returned_immediately (oracle : ℕ → AttemptResp)
    (max_retries : ℕ) (h : oracle 0 = AttemptResp.status 404) :
    makeRequest oracle max_retries = (ReqOutcome.response 404, []) := by
  unfold makeRequest
  rw [makeRequestAux, h]
  simp

/-- Closed witness for the C6 theorem at a concrete oracle. -/
theorem c6_witness :
    makeRequest (fun _ => AttemptResp.status 404) 3 = (ReqOutcome.response 404, []) :=
  c6_not_found_returned_immediately (fun _ => AttemptResp.status 404) 3 rfl

/-- C10: whatever the state of the cache file at client construction — file
absent, unreadable, or holding malformed content — `_load_cache` returns the
empty cache mapping instead of raising, so constructing the client never
fails because of a corrupt or missing cache file. -/
theorem c10_load_cache_never_fails (f : CacheFile)
    (h : ∀ entries, f ≠ CacheFile.valid entries) :
    loadCache f = [] := by
  cases f with
  | absent => rfl
  | unreadable => rfl
  | malformed => rfl
  | valid entries => exact absurd rfl (h entries)

/-- Closed witness for the C10 theorem on a malformed cache file. -/
theorem c10_witness : loadCache CacheFile.malformed = [] :=
  c10_load_cache_never_fails CacheFile.malformed
    (fun _ h => CacheFile.noConfusion h)

/-- Helper: under an all-429 oracle, the retry loop sleeps the 429 backoff for
every attempt strictly below `max_retries` and then fails rate-limited. -/
theorem makeRequestAux_all429 (oracle : ℕ → AttemptResp) (max_retries : ℕ) :
    ∀ fuel attempt, attempt + fuel = max_retries + 1 → attempt ≤ max_retries →
      (∀ k, attempt ≤ k → k ≤ max_retries → oracle k = AttemptResp.status 429) →
      makeRequestAux oracle max_retries fuel attempt =
        (ReqOutcome.rateLimitedError,
          (List.range' attempt (max_retries - attempt)).map backoff429) := by
  intro fuel
  induction fuel with
  | zero => intro attempt hfa hle _; omega
  | succ f ih =>
    intro attempt hfa hle hall
    have h429 : oracle attempt = AttemptResp.status 429 := hall attempt le_rfl hle
    rw [makeRequestAux, h429]
    by_cases hlt : attempt < max_retries
    · have hrec := ih (attempt + 1) (by omega) (by omega)
        (fun k hk1 hk2 => hall k (by omega) hk2)
      have hr : max_retries - attempt = (max_retries - (attempt + 1)) + 1 := by omega
      simp only [if_pos rfl, if_pos hlt, hrec, hr, List.range'_succ, List.map_cons,
        if_true, decide_True, ite_true]
    · have heq : attempt = max_retries := by omega
      have hz : max_retries - attempt = 0 := by omega
      simp only [if_pos rfl, if_neg hlt, hz, List.range', List.map_nil, if_true,
        decide_True, ite_true]

/-- C5: a request that receives a 429 response on attempt `k` (0-indexed)
with `k` below the configured maximum retry count sleeps
`min(cap, base * 2 ^ k)` (cap 60, base 5) and retries; once every attempt up
to and including the maximum has answered 429, the call fails with the
rate-limited error instead of returning a response, having slept exactly the
capped exponential backoffs of attempts `0, …, max_retries - 1`. -/
theorem c5_429_exponential_backoff_then_failure (oracle : ℕ → AttemptResp)
    (max_retries : ℕ)
    (h : ∀ k, k ≤ max_retries → oracle k = AttemptResp.status 429) :
    makeRequest oracle max_retries =
      (ReqOutcome.rateLimitedError, (List.range max_retries).map backoff429) ∧
    ∀ k, backoff429 k = min 60 (5 * 2 ^ k) := by
  constructor
  · unfold makeRequest
    rw [makeRequestAux_all429 oracle max_retries (max_retries + 1) 0 (by omega)
      (by omega) (fun k _ hk2 => h k hk2)]
    rw [List.range_eq_range', Nat.sub_zero]
  · intro k
    simp [backoff429, Nat.mul_comm]

/-- Closed witness for the C5 theorem: with three retries the backoffs are
5, 10, 20 seconds and the call then fails rate-limited. -/
theorem c5_witness :
    makeRequest (fun _ => AttemptResp.status 429) 3 =
      (ReqOutcome.rateLimitedError, (List.range 3).map backoff429) ∧
    ∀ k, backoff429 k = min 60 (5 * 2 ^ k) :=
  c5_429_exponential_backoff_then_failure (fun _ => AttemptResp.status 429) 3
    (fun _ _ => rfl)

/-- C1: when the filing header parses, the extraction engine emits exactly one
raw holding record per holding element of the document — the `i`-th record is
the stamped conversion of the `i`-th element — and an element whose required
name field is missing is still emitted, with a null name, rather than being
omitted or failing the filing. -/
theorem c1_extraction_emits_one_record_per_element (src : String)
    (doc : NportDocument) (hdr : FilingHeader) (h : doc.header = some hdr) :
    ∃ records, extract src doc = Except.ok (records, hdr) ∧
      records.length = doc.holdings.length ∧
      (∀ i : ℕ, records[i]? = (doc.holdings[i]?).map (toRawHolding src hdr)) ∧
      ∀ e : HoldingElement, (toRawHolding src hdr e).name = e.name := by
  refine ⟨doc.holdings.map (toRawHolding src hdr), ?_, ?_, ?_, ?_⟩
  · unfold extract
    rw [h]
  · exact List.length_map _ _
  · intro i
    exact List.getElem?_map _ _ _
  · intro e
    rfl

/-- Closed witness for the C1 theorem on a two-element document whose first
element has every field (including the name) missing. -/
theorem c1_witness :
    ∃ records, extract "f.xml" sampleDoc = Except.ok (records, sampleHeader) ∧
      records.length = sampleDoc.holdings.length ∧
      (∀ i : ℕ,
        records[i]? = (sampleDoc.holdings[i]?).map (toRawHolding "f.xml" sampleHeader)) ∧
      ∀ e : HoldingElement, (toRawHolding "f.xml" sampleHeader e).name = e.name :=
  c1_extraction_emits_one_record_per_element "f.xml" sampleDoc sampleHeader rfl

/-- C2: for an identifier in the batch whose current cache entry is a
negative result (`has_no_results = true`), `resolve_batch` issues no remote
request when the entry is younger than the TTL, and treats the entry as a
cache miss — issuing exactly one remote re-query — when it is older than the
TTL. -/
theorem c2_negative_cache_ttl (db : List SecurityMapping)
    (oracle : String → Option String) (ttl now : ℚ) (t : IdType)
    (ids : List String) (v : String) (m : SecurityMapping)
    (hmem : v ∈ ids) (hfind : findCurrent db t v = some m)
    (hneg : m.has_no_results = true) :
    (resolve_batch db oracle ttl now t ids).2.count v =
      if now - m.last_fetched_date < ttl then 0 else 1 := by
  have hsnd : (resolve_batch db oracle ttl now t ids).2 =
      ids.dedup.filter (fun w => needsRemote db ttl now t w) := rfl
  rw [hsnd]
  have hneed : needsRemote db ttl now t v =
      !decide (now - m.last_fetched_date < ttl) := by
    unfold needsRemote isFreshHit
    rw [hfind]
    simp [hneg]
  by_cases hfresh : now - m.last_fetched_date < ttl
  · rw [if_pos hfresh, List.count_eq_zero]
    intro hv
    rw [List.mem_filter, hneed] at hv
    simp [hfresh] at hv
  · rw [if_neg hfresh]
    have hp : (fun w => needsRemote db ttl now t w) v = true := by
      show needsRemote db ttl now t v = true
      rw [hneed]
      simp [hfresh]
    rw [List.count_filter hp, List.count_dedup, if_pos hmem]

/-- Closed witness for the C2 theorem: a negative entry fetched at time 0,
queried at time 100 with a 60-day TTL, is stale and re-queried exactly once. -/
theorem c2_witness :
    (resolve_batch [sampleNegativeRow] (fun _ => some "AAPL") 60 100 IdType.CUSIP
        ["037833100"]).2.count "037833100" =
      if (100 : ℚ) - sampleNegativeRow.last_fetched_date < 60 then 0 else 1 :=
  c2_negative_cache_ttl [sampleNegativeRow] (fun _ => some "AAPL") 60 100
    IdType.CUSIP ["037833100"] "037833100" sampleNegativeRow (by simp)
    (by rfl) rfl

/-- Helper: the guarded request never proceeds earlier than `min_interval`
after the previously recorded request instant. -/
theorem rateLimit_proceed_ge (s : RateLimiterState) (t : ℚ) :
    s.last_request_time + s.min_interval ≤ rateLimitProceedTime s t := by
  by_cases h : t - s.last_request_time < s.min_interval
  · simp only [rateLimitProceedTime, rateLimitSleep, if_pos h]
    linarith
  · simp only [rateLimitProceedTime, rateLimitSleep, if_neg h]
    linarith

/-- Helper: the configured minimum interval never changes along a run. -/
theorem rateLimitStateAt_min_interval (s₀ : RateLimiterState) (arrivals : ℕ → ℚ)
    (n : ℕ) : (rateLimitStateAt s₀ arrivals n).min_interval = s₀.min_interval := by
  induction n with
  | zero => rfl
  | succ n ih => simpa [rateLimitStateAt, rateLimitStep] using ih

/-- Helper: consecutive requests of a run are at least `min_interval` apart. -/
theorem requestTime_gap (s₀ : RateLimiterState) (arrivals : ℕ → ℚ) (n : ℕ) :
    requestTime s₀ arrivals n + s₀.min_interval ≤ requestTime s₀ arrivals (n + 1) := by
  have h := rateLimit_proceed_ge (rateLimitStateAt s₀ arrivals (n + 1)) (arrivals (n + 1))
  have hlast : (rateLimitStateAt s₀ arrivals (n + 1)).last_request_time =
      requestTime s₀ arrivals n := rfl
  rw [hlast, rateLimitStateAt_min_interval] at h
  exact h

/-- Helper: request `i + k` happens at least `k * min_interval` after
request `i`. -/
theorem requestTime_linear (s₀ : RateLimiterState) (arrivals : ℕ → ℚ) (i k : ℕ) :
    requestTime s₀ arrivals i + (k : ℚ) * s₀.min_interval ≤
      requestTime s₀ arrivals (i + k) := by
  induction k with
  | zero => simp
  | succ k ih =>
    have h := requestTime_gap s₀ arrivals (i + k)
    have hc : ((k : ℚ) + 1) * s₀.min_interval =
        (k : ℚ) * s₀.min_interval + s₀.min_interval := by ring
    push_cast
    rw [hc]
    have : i + (k + 1) = (i + k) + 1 := by omega
    rw [this]
    linarith

/-- C7: with the OpenFIGI configuration (minimum spacing of 7/25 seconds,
i.e. 25 requests per 7 seconds), any run of rate-limited remote requests —
in particular the remote requests issued during one `resolve_batch`
execution — places at most 25 requests inside any 7-second window. -/
theorem c7_at_most_25_requests_per_7_seconds (s₀ : RateLimiterState)
    (arrivals : ℕ → ℚ) (hmin : s₀.min_interval = openFigiMinInterval)
    (N : ℕ) (w : ℚ) :
    ((Finset.range N).filter fun k =>
        w ≤ requestTime s₀ arrivals k ∧ requestTime s₀ arrivals k < w + 7).card
      ≤ 25 := by
  set S := (Finset.range N).filter fun k =>
    w ≤ requestTime s₀ arrivals k ∧ requestTime s₀ arrivals k < w + 7 with hS
  rcases S.eq_empty_or_nonempty with he | hne
  · simp [he]
  · have haS := S.min'_mem hne
    have hsub : S ⊆ Finset.Ico (S.min' hne) (S.min' hne + 25) := by
      intro k hk
      rw [Finset.mem_Ico]
      refine ⟨S.min'_le k hk, ?_⟩
      by_contra hge
      push_neg at hge
      have hka : S.min' hne + 25 ≤ k := hge
      have hlin := requestTime_linear s₀ arrivals (S.min' hne) (k - S.min' hne)
      rw [hmin] at hlin
      have hidx : S.min' hne + (k - S.min' hne) = k := by omega
      rw [hidx] at hlin
      have hcast : (25 : ℚ) ≤ ((k - S.min' hne : ℕ) : ℚ) := by
        exact_mod_cast Nat.le_sub_of_add_le (by omega)
      have hseven : (7 : ℚ) ≤ ((k - S.min' hne : ℕ) : ℚ) * openFigiMinInterval := by
        unfold openFigiMinInterval
        nlinarith
      have hwa : w ≤ requestTime s₀ arrivals (S.min' hne) := by
        have := Finset.mem_filter.mp haS
        exact this.2.1
      have hkw : requestTime s₀ arrivals k < w + 7 := by
        have := Finset.mem_filter.mp hk
        exact this.2.2
      linarith
    calc S.card ≤ (Finset.Ico (S.min' hne) (S.min' hne + 25)).card :=
          Finset.card_le_card hsub
      _ = 25 := by simp

/-- Closed witness for the C7 theorem at a concrete run. -/
theorem c7_witness :
    ((Finset.range 30).filter fun k =>
        0 ≤ requestTime ⟨0, 7 / 25⟩ (fun _ => 0) k ∧
          requestTime ⟨0, 7 / 25⟩ (fun _ => 0) k < 0 + 7).card ≤ 25 :=
  c7_at_most_25_requests_per_7_seconds ⟨0, 7 / 25⟩ (fun _ => 0) rfl 30 0

/-- C8: in every filing-record state reachable from discovery through
orchestrator transitions, `processing_status = processed` implies
`download_status = downloaded`; no transition sequence can mark a filing
processed while its download axis is still pending or failed. -/
theorem c8_processed_implies_downloaded (s : FilingRecord)
    (h : ReachableFiling s)
    (hp : s.processing_status = ProcessingStatus.processed) :
    s.download_status = DownloadStatus.downloaded := by
  unfold ReachableFiling at h
  induction h with
  | refl =>
    exact absurd hp (by simp [initialFiling])
  | tail hsteps step ih =>
    cases step with
    | downloadSuccess hne =>
      rfl
    | downloadFailure hpend =>
      have hd := ih hp
      rw [hd] at hpend
      exact DownloadStatus.noConfusion hpend
    | processSuccess hdl hne =>
      exact hdl
    | processFailure hpend =>
      exact absurd hp (by simp)

/-- Closed witness for the C8 theorem: the state reached by a successful
download followed by a successful processing step is downloaded. -/
theorem c8_witness :
    (⟨DownloadStatus.downloaded, ProcessingStatus.processed⟩ : FilingRecord).download_status
      = DownloadStatus.downloaded :=
  c8_processed_implies_downloaded
    ⟨DownloadStatus.downloaded, ProcessingStatus.processed⟩
    (Relation.ReflTransGen.tail
      (Relation.ReflTransGen.tail Relation.ReflTransGen.refl
        (FilingTransition.downloadSuccess initialFiling (by simp [initialFiling])))
      (FilingTransition.processSuccess
        ⟨DownloadStatus.downloaded, ProcessingStatus.pending⟩ rfl (by simp)))
    rfl

/-- Helper: refreshing `last_fetched_date` of a row does not change whether
any key regards it as current. -/
theorem isCurrentFor_refresh (t : IdType) (v : String) (t' : IdType) (v' : String)
    (now : ℚ) (r : SecurityMapping) :
    isCurrentFor t' v'
        (if isCurrentFor t v r then { r with last_fetched_date := now } else r) =
      isCurrentFor t' v' r := by
  by_cases h : isCurrentFor t v r = true
  · rw [if_pos h]
    rfl
  · rw [if_neg h]

/-- Helper: a row whose `end_date` has been set is current for no key. -/
theorem isCurrentFor_closed (t' : IdType) (v' : String) (now : ℚ)
    (r : SecurityMapping) :
    isCurrentFor t' v' { r with end_date := some now } = false := by
  simp [isCurrentFor]

/-- Helper: the fresh row opened by a cache write is current only for its own
key. -/
theorem isCurrentFor_newMappingRow (t : IdType) (v : String) (t' : IdType)
    (v' : String) (now : ℚ) (result : Option String) (hk : ¬(t' = t ∧ v' = v)) :
    isCurrentFor t' v' (newMappingRow now t v result) = false := by
  simp only [isCurrentFor, newMappingRow, decide_eq_false_iff_not]
  rintro ⟨h1, h2, _⟩
  exact hk ⟨h1.symm, h2.symm⟩

/-- C3: the cache-write operation of the resolution engine preserves the
uniqueness invariant — after any write, at most one `security_mappings` row
per (identifier_type, identifier_value) has `end_date = null` — and never
overwrites history: every pre-existing row survives the write with its
identifier, ticker and start_date intact (a ticker change closes the old row
and opens a new current row instead of updating the old row in place). -/
theorem c3_cache_write_temporal (db : List SecurityMapping) (now : ℚ)
    (t : IdType) (v : String) (result : Option String)
    (hinv : AtMostOneCurrent db) :
    AtMostOneCurrent (cacheWrite db now t v result) ∧
    ∀ r ∈ db, ∃ r' ∈ cacheWrite db now t v result,
      r'.identifier_type = r.identifier_type ∧
      r'.identifier_value = r.identifier_value ∧
      r'.ticker = r.ticker ∧
      r'.start_date = r.start_date := by
  cases hfind : findCurrent db t v with
  | none =>
    constructor
    · intro t' v'
      simp only [cacheWrite, hfind, List.countP_append]
      by_cases hk : t' = t ∧ v' = v
      · have hz : db.countP (isCurrentFor t' v') = 0 := by
          rw [List.countP_eq_zero]
          intro r hr
          have hnone := List.find?_eq_none.mp hfind r hr
          rcases hk with ⟨hk1, hk2⟩
          rw [hk1, hk2]
          exact hnone
        have hone : List.countP (isCurrentFor t' v') [newMappingRow now t v result] ≤ 1 := by
          rw [List.countP_cons, List.countP_nil]
          split <;> omega
        omega
      · have hnew : isCurrentFor t' v' (newMappingRow now t v result) = false :=
          isCurrentFor_newMappingRow t v t' v' now result hk
        have hone : List.countP (isCurrentFor t' v') [newMappingRow now t v result] = 0 := by
          rw [List.countP_cons, List.countP_nil, hnew]
          simp
        rw [hone]
        have := hinv t' v'
        omega
    · intro r hr
      refine ⟨r, ?_, rfl, rfl, rfl, rfl⟩
      simp only [cacheWrite, hfind]
      exact List.mem_append_left _ hr
  | some m =>
    by_cases hticker : m.ticker = result
    · constructor
      · intro t' v'
        simp only [cacheWrite, hfind, if_pos hticker, List.countP_map]
        have hfe : (isCurrentFor t' v') ∘
            (fun r => if isCurrentFor t v r then { r with last_fetched_date := now } else r) =
            isCurrentFor t' v' :=
          funext fun r => isCurrentFor_refresh t v t' v' now r
        rw [hfe]
        exact hinv t' v'
      · intro r hr
        simp only [cacheWrite, hfind, if_pos hticker]
        refine ⟨if isCurrentFor t v r then { r with last_fetched_date := now } else r,
          List.mem_map_of_mem _ hr, ?_⟩
        by_cases h : isCurrentFor t v r = true
        · rw [if_pos h]
          exact ⟨rfl, rfl, rfl, rfl⟩
        · rw [if_neg h]
          exact ⟨rfl, rfl, rfl, rfl⟩
    · constructor
      · intro t' v'
        simp only [cacheWrite, hfind, if_neg hticker, List.countP_append,
          List.countP_map]
        by_cases hk : t' = t ∧ v' = v
        · have hz : db.countP ((isCurrentFor t' v') ∘
              (fun r => if isCurrentFor t v r then { r with end_date := some now } else r)) = 0 := by
            rw [List.countP_eq_zero]
            intro r hr
            simp only [Function.comp_apply]
            by_cases hc : isCurrentFor t v r = true
            · rw [if_pos hc, isCurrentFor_closed]
              simp
            · rw [if_neg hc]
              rcases hk with ⟨hk1, hk2⟩
              rw [hk1, hk2]
              simp only [Bool.not_eq_true] at hc
              simp [hc]
          have hone : List.countP (isCurrentFor t' v') [newMappingRow now t v result] ≤ 1 := by
            rw [List.countP_cons, List.countP_nil]
            split <;> omega
          omega
        · have hmono : db.countP ((isCurrentFor t' v') ∘
              (fun r => if isCurrentFor t v r then { r with end_date := some now } else r)) ≤
              db.countP (isCurrentFor t' v') := by
            apply List.countP_mono_left
            intro r hr
            simp only [Function.comp_apply]
            by_cases hc : isCurrentFor t v r = true
            · rw [if_pos hc, isCurrentFor_closed]
              intro hfalse
              exact absurd hfalse (by simp)
            · rw [if_neg hc]
              exact fun h => h
          have hnew : isCurrentFor t' v' (newMappingRow now t v result) = false :=
            isCurrentFor_newMappingRow t v t' v' now result hk
          have hone : List.countP (isCurrentFor t' v') [newMappingRow now t v result] = 0 := by
            rw [List.countP_cons, List.countP_nil, hnew]
            simp
          rw [hone]
          have := hinv t' v'
          omega
      · intro r hr
        simp only [cacheWrite, hfind, if_neg hticker]
        refine ⟨if isCurrentFor t v r then { r with end_date := some now } else r,
          List.mem_append_left _ (List.mem_map_of_mem _ hr), ?_⟩
        by_cases h : isCurrentFor t v r = true
        · rw [if_pos h]
          exact ⟨rfl, rfl, rfl, rfl⟩
        · rw [if_neg h]
          exact ⟨rfl, rfl, rfl, rfl⟩

/-- Closed witness for the C3 theorem: writing a changed ticker over a
one-row cache. -/
theorem c3_witness :
    AtMostOneCurrent (cacheWrite [sampleNegativeRow] 100 IdType.CUSIP "037833100"
      (some "AAPL")) ∧
    ∀ r ∈ [sampleNegativeRow],
      ∃ r' ∈ cacheWrite [sampleNegativeRow] 100 IdType.CUSIP "037833100"
          (some "AAPL"),
        r'.identifier_type = r.identifier_type ∧
        r'.identifier_value = r.identifier_value ∧
        r'.ticker = r.ticker ∧
        r'.start_date = r.start_date :=
  c3_cache_write_temporal [sampleNegativeRow] 100 IdType.CUSIP "037833100"
    (some "AAPL")
    (by
      intro t' v'
      rw [List.countP_cons, List.countP_nil]
      split <;> omega)

/-- Helper: decoding inverts encoding for nullable string values. -/
theorem decOptStr_jsonOfOptStr (x : Option String) : decOptStr (jsonOfOptStr x) = Except.ok x := by
  cases x <;> rfl

/-- Helper: decoding inverts encoding for nullable numeric values. -/
theorem decOptNum_jsonOfOptNum (x : Option ℚ) : decOptNum (jsonOfOptNum x) = Except.ok x := by
  cases x <;> rfl

/-- Helper: binding a successful `Except` value applies the continuation. -/
theorem exceptOk_bind {α β : Type} (a : α) (f : α → Except String β) :
    (Except.ok a : Except String α) >>= f = f a := rfl

/-- Helper: the `name` column decodes back to itself. -/
theorem enc_name (h : EnrichedHolding) :
    getOptStr (holdingToJson h) "name" = Except.ok h.toRawHolding.name :=
  decOptStr_jsonOfOptStr h.toRawHolding.name

/-- Helper: the `lei` column decodes back to itself. -/
theorem enc_lei (h : EnrichedHolding) :
    getOptStr (holdingToJson h) "lei" = Except.ok h.toRawHolding.lei :=
  decOptStr_jsonOfOptStr h.toRawHolding.lei

/-- Helper: the `title` column decodes back to itself. -/
theorem enc_title (h : EnrichedHolding) :
    getOptStr (holdingToJson h) "title" = Except.ok h.toRawHolding.title :=
  decOptStr_jsonOfOptStr h.toRawHolding.title

/-- Helper: the `cusip` column decodes back to itself. -/
theorem enc_cusip (h : EnrichedHolding) :
    getOptStr (holdingToJson h) "cusip" = Except.ok h.toRawHolding.cusip :=
  decOptStr_jsonOfOptStr h.toRawHolding.cusip

/-- Helper: the `isin` column decodes back to itself. -/
theorem enc_isin (h : EnrichedHolding) :
    getOptStr (holdingToJson h) "isin" = Except.ok h.toRawHolding.isin :=
  decOptStr_jsonOfOptStr h.toRawHolding.isin

/-- Helper: the `other_id` column decodes back to itself. -/
theorem enc_other_id (h : EnrichedHolding) :
    getOptStr (holdingToJson h) "other_id" = Except.ok h.toRawHolding.other_id :=
  decOptStr_jsonOfOptStr h.toRawHolding.other_id

/-- Helper: the `other_id_desc` column decodes back to itself. -/
theorem enc_other_id_desc (h : EnrichedHolding) :
    getOptStr (holdingToJson h) "other_id_desc" = Except.ok h.toRawHolding.other_id_desc :=
  decOptStr_jsonOfOptStr h.toRawHolding.other_id_desc

/-- Helper: the `units` column decodes back to itself. -/
theorem enc_units (h : EnrichedHolding) :
    getOptStr (holdingToJson h) "units" = Except.ok h.toRawHolding.units :=
  decOptStr_jsonOfOptStr h.toRawHolding.units

/-- Helper: the `currency` column decodes back to itself. -/
theorem enc_currency (h : EnrichedHolding) :
    getOptStr (holdingToJson h) "currency" = Except.ok h.toRawHolding.currency :=
  decOptStr_jsonOfOptStr h.toRawHolding.currency

/-- Helper: the `payoff_profile` column decodes back to itself. -/
theorem enc_payoff_profile (h : EnrichedHolding) :
    getOptStr (holdingToJson h) "payoff_profile" = Except.ok h.toRawHolding.payoff_profile :=
  decOptStr_jsonOfOptStr h.toRawHolding.payoff_profile

/-- Helper: the `asset_category` column decodes back to itself. -/
theorem enc_asset_category (h : EnrichedHolding) :
    getOptStr (holdingToJson h) "asset_category" = Except.ok h.toRawHolding.asset_category :=
  decOptStr_jsonOfOptStr h.toRawHolding.asset_category

/-- Helper: the `issuer_category` column decodes back to itself. -/
theorem enc_issuer_category (h : EnrichedHolding) :
    getOptStr (holdingToJson h) "issuer_category" = Except.ok h.toRawHolding.issuer_category :=
  decOptStr_jsonOfOptStr h.toRawHolding.issuer_category

/-- Helper: the `investment_country` column decodes back to itself. -/
theorem enc_investment_country (h : EnrichedHolding) :
    getOptStr (holdingToJson h) "investment_country" = Except.ok h.toRawHolding.investment_country :=
  decOptStr_jsonOfOptStr h.toRawHolding.investment_country

/-- Helper: the `is_restricted_security` column decodes back to itself. -/
theorem enc_is_restricted_security (h : EnrichedHolding) :
    getOptStr (holdingToJson h) "is_restricted_security" = Except.ok h.toRawHolding.is_restricted_security :=
  decOptStr_jsonOfOptStr h.toRawHolding.is_restricted_security

/-- Helper: the `fair_value_level` column decodes back to itself. -/
theorem enc_fair_value_level (h : EnrichedHolding) :
    getOptStr (holdingToJson h) "fair_value_level" = Except.ok h.toRawHolding.fair_value_level :=
  decOptStr_jsonOfOptStr h.toRawHolding.fair_value_level

/-- Helper: the `is_cash_collateral` column decodes back to itself. -/
theorem enc_is_cash_collateral (h : EnrichedHolding) :
    getOptStr (holdingToJson h) "is_cash_collateral" = Except.ok h.toRawHolding.is_cash_collateral :=
  decOptStr_jsonOfOptStr h.toRawHolding.is_cash_collateral

/-- Helper: the `is_non_cash_collateral` column decodes back to itself. -/
theorem enc_is_non_cash_collateral (h : EnrichedHolding) :
    getOptStr (holdingToJson h) "is_non_cash_collateral" = Except.ok h.toRawHolding.is_non_cash_collateral :=
  decOptStr_jsonOfOptStr h.toRawHolding.is_non_cash_collateral

/-- Helper: the `is_loan_by_fund` column decodes back to itself. -/
theorem enc_is_loan_by_fund (h : EnrichedHolding) :
    getOptStr (holdingToJson h) "is_loan_by_fund" = Except.ok h.toRawHolding.is_loan_by_fund :=
  decOptStr_jsonOfOptStr h.toRawHolding.is_loan_by_fund

/-- Helper: the `balance` column decodes back to itself. -/
theorem enc_balance (h : EnrichedHolding) :
    getOptNum (holdingToJson h) "balance" = Except.ok h.toRawHolding.balance :=
  decOptNum_jsonOfOptNum h.toRawHolding.balance

/-- Helper: the `value_usd` column decodes back to itself. -/
theorem enc_value_usd (h : EnrichedHolding) :
    getOptNum (holdingToJson h) "value_usd" = Except.ok h.toRawHolding.value_usd :=
  decOptNum_jsonOfOptNum h.toRawHolding.value_usd

/-- Helper: the `percent_value` column decodes back to itself. -/
theorem enc_percent_value (h : EnrichedHolding) :
    getOptNum (holdingToJson h) "percent_value" = Except.ok h.toRawHolding.percent_value :=
  decOptNum_jsonOfOptNum h.toRawHolding.percent_value

/-- Helper: the `loan_value` column decodes back to itself. -/
theorem enc_loan_value (h : EnrichedHolding) :
    getOptNum (holdingToJson h) "loan_value" = Except.ok h.toRawHolding.loan_value :=
  decOptNum_jsonOfOptNum h.toRawHolding.loan_value

/-- Helper: the `source_file` column decodes back to itself. -/
theorem enc_source_file (h : EnrichedHolding) :
    getStr (holdingToJson h) "source_file" = Except.ok h.toRawHolding.source_file := rfl

/-- Helper: the `report_period_date` column decodes back to itself. -/
theorem enc_report_period_date (h : EnrichedHolding) :
    getStr (holdingToJson h) "report_period_date" = Except.ok h.toRawHolding.report_period_date := rfl

/-- Helper: the `ticker` column decodes back to itself. -/
theorem enc_ticker (h : EnrichedHolding) :
    getOptStr (holdingToJson h) "ticker" = Except.ok h.ticker :=
  decOptStr_jsonOfOptStr h.ticker

/-- Helper: the `enrichment_datetime` column decodes back to itself. -/
theorem enc_enrichment_datetime (h : EnrichedHolding) :
    getStr (holdingToJson h) "enrichment_datetime" = Except.ok h.enrichment_datetime := rfl

/-- Helper: the `enrichment_notes` column decodes back to itself. -/
theorem enc_enrichment_notes (h : EnrichedHolding) :
    getOptStr (holdingToJson h) "enrichment_notes" = Except.ok h.enrichment_notes :=
  decOptStr_jsonOfOptStr h.enrichment_notes

/-- Helper: decoding a structured holding object built from a flat record
recovers the record, field for field. -/
theorem jsonToHolding_holdingToJson (h : EnrichedHolding) :
    jsonToHolding (holdingToJson h) = Except.ok h := by
  simp only [jsonToHolding, enc_name, enc_lei, enc_title, enc_cusip, enc_isin,
    enc_other_id, enc_other_id_desc, enc_balance, enc_units, enc_currency,
    enc_value_usd, enc_percent_value, enc_payoff_profile, enc_asset_category,
    enc_issuer_category, enc_investment_country, enc_is_restricted_security,
    enc_fair_value_level, enc_is_cash_collateral, enc_is_non_cash_collateral,
    enc_is_loan_by_fund, enc_loan_value, enc_source_file, enc_report_period_date,
    enc_ticker, enc_enrichment_datetime, enc_enrichment_notes, exceptOk_bind]
  rfl

/-- Helper: decoding every holding of an encoded list recovers the list. -/
theorem mapM_jsonToHolding_map (rows : List EnrichedHolding) :
    (rows.map holdingToJson).mapM jsonToHolding = Except.ok rows := by
  induction rows with
  | nil => rfl
  | cons r rs ih =>
    simp only [List.map_cons, List.mapM_cons, jsonToHolding_holdingToJson, ih,
      exceptOk_bind]
    rfl

/-- C9: converting a flat raw-holdings export into the structured (nested)
export and back to flat records reproduces every field of every record
exactly — numeric fields included, with no precision loss — and the structured
metadata reports the exact number of holdings. -/
theorem c9_flat_structured_roundtrip (filename cik ts : String)
    (rows : List EnrichedHolding) (ex : StructuredExport)
    (h : read_csv_to_json filename cik ts rows = some ex) :
    structuredToFlat ex = Except.ok rows ∧
    ex.metadata.total_holdings = rows.length := by
  unfold read_csv_to_json at h
  cases hft : extract_fund_ticker_from_filename filename with
  | none =>
    rw [hft] at h
    cases h
  | some ft =>
    rw [hft] at h
    injection h with h2
    subst h2
    constructor
    · exact mapM_jsonToHolding_map rows
    · rfl

/-- Closed witness for the C9 theorem on the sample enriched export. -/
theorem c9_witness :
    structuredToFlat sampleExport = Except.ok [sampleEnriched] ∧
    sampleExport.metadata.total_holdings = [sampleEnriched].length :=
  c9_flat_structured_roundtrip sampleFilename "1100663"
    "2025-07-11T14:31:00+00:00" [sampleEnriched] sampleExport (by rfl)

end FundHoldings
